import Mathlib

/-
  Verification of the message-record lifecycle of the LinkCrafter
  repository (src/index.js): the Record Store (loadMessages / saveMessages)
  and the Message Gateway (the send / edit / delete API handlers).

  The JavaScript handlers are embedded shallowly: the remote chat-platform
  session is an explicit parameter (the channel cache plus the outcome the
  remote would return for each remote call the handler makes), the backing
  file is a `FileState`, and every handler returns its HTTP-level result,
  the resulting file state, and the list of remote calls it issued.
-/

namespace LinkCrafter

/-- Truthiness of an optional JSON string field as JavaScript evaluates it
in a boolean position: an absent field and the empty string are falsy,
every other string is truthy. -/
def truthy : Option String → Bool
  | none => false
  | some s => s != ""

/-- One row of the persisted message history, as built by the
`POST /api/send-message` handler (src/index.js lines 238-249).
`lastEdited` is absent on creation and set only by a successful edit. -/
structure MessageRecord where
  id : String
  channelId : String
  channelName : String
  guildId : String
  guildName : String
  content : String
  title : Option String
  color : Option String
  timestamp : String
  isEmbed : Bool
  lastEdited : Option String := none
deriving Repr, DecidableEq

/-- A text channel as seen through the bot session's cache
(`client.channels.cache`), together with its guild data. -/
structure Channel where
  id : String
  name : String
  guildId : String
  guildName : String
deriving Repr, DecidableEq

/-- `client.channels.cache.get(channelId)`: first cached channel whose id
matches, if any. -/
def findChannel (channels : List Channel) (channelId : String) : Option Channel :=
  channels.find? (fun c => c.id == channelId)

/-- The possible states of the backing file `messages.json`: absent,
present but not valid JSON, or a parsable array of records. -/
inductive FileState
  | missing
  | invalid
  | valid (records : List MessageRecord)
deriving Repr, DecidableEq

/-- `loadMessages` (src/index.js lines 107-114): read and parse the file;
a read failure (missing file) or a parse failure both land in the catch
block, which returns the empty array. -/
def loadMessages : FileState → List MessageRecord
  | .valid records => records
  | _ => []

/-- `saveMessages` (src/index.js lines 117-119): serialize the full
collection and overwrite the backing file. -/
def saveMessages (records : List MessageRecord) : FileState :=
  .valid records

/-- The remote calls a handler can issue against the chat-platform
session, recorded so that theorems can speak about which remote
capabilities an operation exercises. -/
inductive RemoteCall
  | sendPlain (channelId content : String)
  | sendEmbed (channelId content : String) (title color : Option String)
  | fetchMessage (channelId messageId : String)
  | editPlain (channelId messageId content : String)
  | editEmbed (channelId messageId content : String) (title color : Option String)
  | deleteMessage (channelId messageId : String)
deriving Repr, DecidableEq

/-- Body of a `POST /api/send-message` request: every field may be absent.
`useEmbed` is modelled as a boolean flag. -/
structure SendRequest where
  channelId : Option String
  content : Option String
  useEmbed : Bool
  title : Option String
  color : Option String
deriving Repr, DecidableEq

/-- What the remote session answers to a `channel.send` call: the
remote-assigned message id on success, or a rejection (permission error,
network error, channel gone at dispatch). -/
inductive SendOutcome
  | ok (remoteId : String)
  | err
deriving Repr, DecidableEq

/-- HTTP-level outcome of the send handler. -/
inductive SendResult
  | badRequest
  | channelNotFound
  | serverError
  | success (messageId : String) (record : MessageRecord)
deriving Repr, DecidableEq

/-- The `POST /api/send-message` handler (src/index.js lines 210-259).
Validates channelId and content (JS truthiness), resolves the channel in
the bot cache, dispatches the remote send, and on success appends the new
record to the collection read via `loadMessages` and persists it via
`saveMessages`. On any failure the file is left untouched. -/
def sendMessage (channels : List Channel) (remote : SendOutcome)
    (req : SendRequest) (now : String) (file : FileState) :
    SendResult × FileState × List RemoteCall :=
  if !truthy req.channelId || !truthy req.content then
    (.badRequest, file, [])
  else
    let channelId := req.channelId.getD ""
    let content := req.content.getD ""
    match findChannel channels channelId with
    | none => (.channelNotFound, file, [])
    | some channel =>
      let call :=
        if req.useEmbed then
          RemoteCall.sendEmbed channel.id content
            (if truthy req.title then req.title else none)
            (if truthy req.color then req.color else none)
        else
          RemoteCall.sendPlain channel.id content
      match remote with
      | .err => (.serverError, file, [call])
      | .ok remoteId =>
        let messages := loadMessages file
        let messageData : MessageRecord :=
          { id := remoteId
            channelId := channel.id
            channelName := channel.name
            guildId := channel.guildId
            guildName := channel.guildName
            content := content
            title := if req.useEmbed && truthy req.title then req.title else none
            color := if req.useEmbed && truthy req.color then req.color else none
            timestamp := now
            isEmbed := req.useEmbed }
        (.success remoteId messageData,
         saveMessages (messages ++ [messageData]), [call])

/-- `Array.prototype.findIndex` together with the subsequent index access:
the first element satisfying the predicate, paired with its index. -/
def findWithIdx (p : α → Bool) : List α → Option (Nat × α)
  | [] => none
  | x :: xs =>
      if p x then some (0, x)
      else (findWithIdx p xs).map (fun q => (q.1 + 1, q.2))

/-- Body of a `PUT /api/edit-message/:messageId` request. -/
structure EditRequest where
  content : Option String
  title : Option String
  color : Option String
deriving Repr, DecidableEq

/-- What `channel.messages.fetch(messageId)` yields: the message, a
missing message, or a thrown error (caught by the handler's catch block). -/
inductive FetchOutcome
  | found
  | missing
  | threw
deriving Repr, DecidableEq

/-- Whether the remote `discordMessage.edit` call succeeds or rejects. -/
inductive EditOutcome
  | ok
  | err
deriving Repr, DecidableEq

/-- HTTP-level outcome of the edit handler. -/
inductive EditResult
  | badRequest
  | notFoundInStorage
  | channelNotFound
  | remoteMessageNotFound
  | serverError
  | success (record : MessageRecord)
deriving Repr, DecidableEq

/-- The `PUT /api/edit-message/:messageId` handler (src/index.js lines
273-333). Validates content, locates the record by id in the loaded
collection, resolves its channel, fetches the remote message, edits it
remotely (embed shape when the stored record is an embed or a truthy
title/color is supplied), then rewrites the stored record with the new
content, title/color falling back to the stored values when the new ones
are falsy, `lastEdited = now`, and the recomputed `isEmbed`, and persists
the full collection. -/
def editMessage (channels : List Channel) (fetch : FetchOutcome)
    (remoteEdit : EditOutcome) (messageId : String) (req : EditRequest)
    (now : String) (file : FileState) :
    EditResult × FileState × List RemoteCall :=
  if !truthy req.content then
    (.badRequest, file, [])
  else
    let content := req.content.getD ""
    let messages := loadMessages file
    match findWithIdx (fun m => m.id == messageId) messages with
    | none => (.notFoundInStorage, file, [])
    | some (messageIndex, storedMessage) =>
      match findChannel channels storedMessage.channelId with
      | none => (.channelNotFound, file, [])
      | some channel =>
        let fetchCall := RemoteCall.fetchMessage channel.id messageId
        match fetch with
        | .threw => (.serverError, file, [fetchCall])
        | .missing => (.remoteMessageNotFound, file, [fetchCall])
        | .found =>
          let editCall :=
            if storedMessage.isEmbed || truthy req.title || truthy req.color then
              RemoteCall.editEmbed channel.id messageId content
                (if truthy req.title then req.title else none)
                (if truthy req.color then req.color else none)
            else
              RemoteCall.editPlain channel.id messageId content
          match remoteEdit with
          | .err => (.serverError, file, [fetchCall, editCall])
          | .ok =>
            let updated : MessageRecord :=
              { storedMessage with
                content := content
                title := if truthy req.title then req.title else storedMessage.title
                color := if truthy req.color then req.color else storedMessage.color
                lastEdited := some now
                isEmbed := truthy req.title || truthy req.color || storedMessage.isEmbed }
            (.success updated,
             saveMessages (messages.set messageIndex updated),
             [fetchCall, editCall])

/-- HTTP-level outcome of the delete handler. -/
inductive DeleteResult
  | notFound
  | success
deriving Repr, DecidableEq

/-- The `DELETE /api/delete-message/:messageId` handler (src/index.js
lines 336-353). Filters the record with the given id out of the loaded
collection and persists the rest; 404 when nothing was removed. It makes
no remote call of any kind. -/
def deleteMessage (messageId : String) (file : FileState) :
    DeleteResult × FileState × List RemoteCall :=
  let messages := loadMessages file
  let filteredMessages := messages.filter (fun m => m.id != messageId)
  if messages.length = filteredMessages.length then
    (.notFound, file, [])
  else
    (.success, saveMessages filteredMessages, [])

/-- JavaScript `String.prototype.trim`, embedded on the character list:
drops leading and trailing whitespace. Used to state the spec's
"non-empty after trimming" conditions. -/
def jsTrim (s : String) : String :=
  String.mk
    (((s.data.dropWhile Char.isWhitespace).reverse.dropWhile
        Char.isWhitespace).reverse)

/-- Whether a remote call is a message-send dispatch. -/
def RemoteCall.isSendCall : RemoteCall → Bool
  | .sendPlain .. => true
  | .sendEmbed .. => true
  | _ => false

/-! ### Concrete fixtures used by witnesses and counterexamples -/

/-- A cached text channel used as a concrete fixture. -/
def ch1 : Channel :=
  { id := "c1", name := "general", guildId := "g1", guildName := "Guild One" }

/-- A plain stored record used as a concrete fixture. -/
def r0 : MessageRecord :=
  { id := "M1", channelId := "c1", channelName := "general", guildId := "g1",
    guildName := "Guild One", content := "hello", title := none, color := none,
    timestamp := "2024-01-01T00:00:00.000Z", isEmbed := false }

/-- The record the send handler builds on remote success (src/index.js
lines 238-249), as a function of the resolved channel, the request, the
creation instant and the remote-assigned id. -/
def sentRecord (ch : Channel) (req : SendRequest) (now remoteId : String) :
    MessageRecord :=
  { id := remoteId
    channelId := ch.id
    channelName := ch.name
    guildId := ch.guildId
    guildName := ch.guildName
    content := req.content.getD ""
    title := if req.useEmbed && truthy req.title then req.title else none
    color := if req.useEmbed && truthy req.color then req.color else none
    timestamp := now
    isEmbed := req.useEmbed }

/-- The record the edit handler writes back on success (src/index.js
lines 317-324): the stored record with new content, title and color
falling back to the stored values when the new ones are falsy,
`lastEdited = now`, and the recomputed `isEmbed`. -/
def editedRecord (stored : MessageRecord) (req : EditRequest) (now : String) :
    MessageRecord :=
  { stored with
    content := req.content.getD ""
    title := if truthy req.title then req.title else stored.title
    color := if truthy req.color then req.color else stored.color
    lastEdited := some now
    isEmbed := truthy req.title || truthy req.color || stored.isEmbed }

/-- The embed invariant for a single record: any record carrying a
non-null title or color is marked as an embed. -/
def embedInv (r : MessageRecord) : Prop :=
  (r.title ≠ none ∨ r.color ≠ none) → r.isEmbed = true

/-- The embed invariant over every record the store holds. -/
def storeInv (file : FileState) : Prop :=
  ∀ r ∈ loadMessages file, embedInv r

/-! ### Helper lemmas about `findWithIdx` -/

@[simp] theorem truthy_none : truthy none = false := rfl

theorem findWithIdx_eq_none {p : α → Bool} {l : List α}
    (h : ∀ x ∈ l, p x = false) : findWithIdx p l = none := by
  induction l with
  | nil => rfl
  | cons x xs ih =>
      simp only [findWithIdx]
      rw [h x (List.mem_cons_self x xs)]
      simp only [Bool.false_eq_true, if_false]
      rw [ih (fun y hy => h y (List.mem_cons_of_mem x hy))]
      rfl

theorem findWithIdx_eq_some {p : α → Bool} {l : List α} {i : Nat} {x : α}
    (h : findWithIdx p l = some (i, x)) :
    i < l.length ∧ l[i]? = some x ∧ p x = true := by
  induction l generalizing i with
  | nil => simp [findWithIdx] at h
  | cons y ys ih =>
      simp only [findWithIdx] at h
      cases hp : p y with
      | true =>
        simp only [hp, if_true, Option.some.injEq, Prod.mk.injEq] at h
        obtain ⟨hi, hx⟩ := h
        subst hi; subst hx
        simp [hp]
      | false =>
        simp only [hp, Bool.false_eq_true, if_false, Option.map_eq_some'] at h
        obtain ⟨⟨j, z⟩, hj, heq⟩ := h
        simp only [Prod.mk.injEq] at heq
        obtain ⟨hji, hzx⟩ := heq
        subst hji; subst hzx
        obtain ⟨h1, h2, h3⟩ := ih hj
        exact ⟨Nat.succ_lt_succ h1, by simpa using h2, h3⟩

/-- The collection a subsequent `loadAll` sees after a delete call: always
the loaded collection with every record of the given id filtered out (on
the 404 path nothing matched, so the filter removed nothing). -/
theorem deleteMessage_loadAll (messageId : String) (file : FileState) :
    loadMessages (deleteMessage messageId file).2.1
      = (loadMessages file).filter (fun m => m.id != messageId) := by
  simp only [deleteMessage]
  by_cases hlen : (loadMessages file).length
      = ((loadMessages file).filter (fun m => m.id != messageId)).length
  · rw [if_pos hlen]
    exact ((List.filter_sublist _).eq_of_length hlen.symm).symm
  · rw [if_neg hlen]
    rfl

/-! ### Claim theorems -/

/-- C8: `loadAll` returns an empty sequence — and does not fail the
caller — whenever the backing file is missing or its contents are
unparsable; on a readable, parsable file it returns the stored sequence
of MessageRecords. -/
theorem loadMessages_resilience :
    loadMessages FileState.missing = []
    ∧ loadMessages FileState.invalid = []
    ∧ ∀ records : List MessageRecord,
        loadMessages (FileState.valid records) = records :=
  ⟨rfl, rfl, fun _ => rfl⟩

/-- C5: delete removes every record whose id matches from the persisted
collection (a subsequent loadAll no longer contains it), leaves every
non-matching record in place, issues no remote call whatsoever (in
particular no remote delete), and fails with NotFound — leaving the file
unchanged — when no record matches. -/
theorem deleteMessage_spec (messageId : String) (file : FileState) :
    ((∀ r ∈ loadMessages file, r.id ≠ messageId) →
        deleteMessage messageId file = (.notFound, file, []))
    ∧ ((∃ r ∈ loadMessages file, r.id = messageId) →
        (deleteMessage messageId file).1 = .success
        ∧ (deleteMessage messageId file).2.1
            = saveMessages ((loadMessages file).filter (fun m => m.id != messageId)))
    ∧ (∀ r, r ∈ loadMessages (deleteMessage messageId file).2.1 ↔
        r ∈ loadMessages file ∧ r.id ≠ messageId)
    ∧ (deleteMessage messageId file).2.2 = [] := by
  refine ⟨?_, ?_, ?_, ?_⟩
  · intro h
    have hfilter : (loadMessages file).filter (fun m => m.id != messageId)
        = loadMessages file :=
      List.filter_eq_self.mpr (fun a ha => by simpa using h a ha)
    simp [deleteMessage, hfilter]
  · rintro ⟨r, hr, hid⟩
    have hlen : (loadMessages file).length
        ≠ ((loadMessages file).filter (fun m => m.id != messageId)).length := by
      intro hlen
      have heq : (loadMessages file).filter (fun m => m.id != messageId)
          = loadMessages file :=
        (List.filter_sublist _).eq_of_length hlen.symm
      have := List.filter_eq_self.mp heq r hr
      simp [hid] at this
    constructor <;> simp [deleteMessage, hlen, saveMessages]
  · intro r
    rw [deleteMessage_loadAll]
    simp [List.mem_filter]
  · simp only [deleteMessage]
    by_cases hlen : (loadMessages file).length
        = ((loadMessages file).filter (fun m => m.id != messageId)).length <;>
      simp [hlen]

/-- Witness for C5 at concrete inputs: the store holding only `r0`
(id "M1"): deleting "M1" succeeds and empties the store; deleting "MX"
returns NotFound with the file untouched. -/
theorem deleteMessage_spec_witness :
    deleteMessage "MX" (FileState.valid [r0]) = (.notFound, .valid [r0], [])
    ∧ (deleteMessage "M1" (FileState.valid [r0])).1 = .success
    ∧ (deleteMessage "M1" (FileState.valid [r0])).2.1
        = saveMessages ((loadMessages (FileState.valid [r0])).filter
            (fun m => m.id != "M1")) :=
  ⟨(deleteMessage_spec "MX" (FileState.valid [r0])).1 (by decide),
   ((deleteMessage_spec "M1" (FileState.valid [r0])).2.1 ⟨r0, by decide, by decide⟩).1,
   ((deleteMessage_spec "M1" (FileState.valid [r0])).2.1 ⟨r0, by decide, by decide⟩).2⟩

/-- C6 as stated is false on the code: validation rejects only an absent
or empty content string, not a whitespace-only one. With content a single
space — empty after trimming — the handler neither returns 400 nor stops:
the remote send happens and the call succeeds. -/
theorem sendMessage_trim_validation_cx :
    jsTrim " " = ""
    ∧ (sendMessage [ch1] (.ok "M2")
        ⟨some "c1", some " ", false, none, none⟩ "t0" FileState.missing).1
        ≠ SendResult.badRequest
    ∧ (sendMessage [ch1] (.ok "M2")
        ⟨some "c1", some " ", false, none, none⟩ "t0" FileState.missing).2.2
        ≠ [] := by
  refine ⟨by decide, by decide, by decide⟩

/-- C6 amended: send fails with ValidationError (400) when channelId is
missing/empty or content is missing/empty as given (no trimming is
applied), and with NotFound (404) when the channelId names no cached
channel; in both cases no remote call is made and the file is unchanged. -/
theorem sendMessage_validation (channels : List Channel) (remote : SendOutcome)
    (req : SendRequest) (now : String) (file : FileState) :
    ((truthy req.channelId = false ∨ truthy req.content = false) →
        sendMessage channels remote req now file = (.badRequest, file, []))
    ∧ (truthy req.channelId = true → truthy req.content = true →
        findChannel channels (req.channelId.getD "") = none →
        sendMessage channels remote req now file = (.channelNotFound, file, [])) := by
  constructor
  · intro h
    rcases h with h | h <;> simp [sendMessage, h]
  · intro h1 h2 h3
    simp [sendMessage, h1, h2, h3]

/-- Witness for C6's amended theorem: missing content gives 400; a truthy
channelId absent from the cache gives 404. -/
theorem sendMessage_validation_witness :
    sendMessage [ch1] (.ok "M9") ⟨some "c1", none, false, none, none⟩ "t0"
        FileState.missing = (.badRequest, FileState.missing, [])
    ∧ sendMessage [ch1] (.ok "M9") ⟨some "cX", some "hi", false, none, none⟩ "t0"
        FileState.missing = (.channelNotFound, FileState.missing, []) :=
  ⟨(sendMessage_validation [ch1] (.ok "M9") ⟨some "c1", none, false, none, none⟩
      "t0" FileState.missing).1 (Or.inr (by decide)),
   (sendMessage_validation [ch1] (.ok "M9") ⟨some "cX", some "hi", false, none, none⟩
      "t0" FileState.missing).2 (by decide) (by decide) (by decide)⟩

/-- C7: when the remote send rejects, the handler returns a 500 failure,
the persisted collection is untouched (no record is created), and exactly
one remote send was attempted — no retry. -/
theorem sendMessage_remote_failure (channels : List Channel) (req : SendRequest)
    (now : String) (file : FileState) (ch : Channel)
    (h1 : truthy req.channelId = true) (h2 : truthy req.content = true)
    (hch : findChannel channels (req.channelId.getD "") = some ch) :
    (sendMessage channels .err req now file).1 = .serverError
    ∧ (sendMessage channels .err req now file).2.1 = file
    ∧ ∃ call, (sendMessage channels .err req now file).2.2 = [call]
        ∧ call.isSendCall = true := by
  refine ⟨by simp [sendMessage, h1, h2, hch], by simp [sendMessage, h1, h2, hch], ?_⟩
  cases hu : req.useEmbed with
  | false =>
      exact ⟨RemoteCall.sendPlain ch.id (req.content.getD ""),
        by simp [sendMessage, h1, h2, hch, hu], rfl⟩
  | true =>
      exact ⟨RemoteCall.sendEmbed ch.id (req.content.getD "")
          (if truthy req.title then req.title else none)
          (if truthy req.color then req.color else none),
        by simp [sendMessage, h1, h2, hch, hu], rfl⟩

/-- Witness for C7: a concrete failing send against the cached channel
"c1" returns 500, leaves the file as it was, and issued one send call. -/
theorem sendMessage_remote_failure_witness :
    (sendMessage [ch1] .err ⟨some "c1", some "hi", false, none, none⟩ "t0"
        (FileState.valid [r0])).1 = .serverError
    ∧ (sendMessage [ch1] .err ⟨some "c1", some "hi", false, none, none⟩ "t0"
        (FileState.valid [r0])).2.1 = FileState.valid [r0]
    ∧ ∃ call, (sendMessage [ch1] .err ⟨some "c1", some "hi", false, none, none⟩ "t0"
        (FileState.valid [r0])).2.2 = [call] ∧ call.isSendCall = true :=
  sendMessage_remote_failure [ch1] ⟨some "c1", some "hi", false, none, none⟩
    "t0" (FileState.valid [r0]) ch1 (by decide) (by decide) (by decide)

/-- C1: a successful send returns a MessageRecord whose id equals the
remote-assigned id, with timestamp set to the creation instant and
lastEdited absent; the record is appended to the collection read via
loadAll and persisted via saveAll, and a subsequent listMessages contains
exactly one record with that id (given that the remote-assigned id is
fresh, as remote ids are unique). -/
theorem sendMessage_success_spec (channels : List Channel) (req : SendRequest)
    (now : String) (file : FileState) (remoteId : String) (ch : Channel)
    (h1 : truthy req.channelId = true) (h2 : truthy req.content = true)
    (hch : findChannel channels (req.channelId.getD "") = some ch)
    (hfresh : ∀ r ∈ loadMessages file, r.id ≠ remoteId) :
    ∃ rec : MessageRecord,
      (sendMessage channels (.ok remoteId) req now file).1 = .success remoteId rec
      ∧ rec.id = remoteId
      ∧ rec.timestamp = now
      ∧ rec.lastEdited = none
      ∧ (sendMessage channels (.ok remoteId) req now file).2.1
          = saveMessages (loadMessages file ++ [rec])
      ∧ (loadMessages (sendMessage channels (.ok remoteId) req now file).2.1).countP
          (fun r => r.id == remoteId) = 1 := by
  refine ⟨sentRecord ch req now remoteId,
    by simp [sendMessage, sentRecord, h1, h2, hch], rfl, rfl, rfl,
    by simp [sendMessage, sentRecord, h1, h2, hch], ?_⟩
  have hload : loadMessages (sendMessage channels (.ok remoteId) req now file).2.1
      = loadMessages file ++ [sentRecord ch req now remoteId] := by
    simp [sendMessage, sentRecord, h1, h2, hch, saveMessages, loadMessages]
  rw [hload, List.countP_append]
  have hzero : (loadMessages file).countP (fun r => r.id == remoteId) = 0 :=
    List.countP_eq_zero.mpr (fun r hr => by simpa using hfresh r hr)
  rw [hzero]
  simp [List.countP_cons, sentRecord]

/-- Witness for C1: a concrete successful plain send of "hi" to the
cached channel "c1" on the store holding `r0`, with remote id "M2". -/
theorem sendMessage_success_spec_witness :
    ∃ rec : MessageRecord,
      (sendMessage [ch1] (.ok "M2") ⟨some "c1", some "hi", false, none, none⟩
          "2024-02-02T00:00:00.000Z" (FileState.valid [r0])).1 = .success "M2" rec
      ∧ rec.id = "M2"
      ∧ rec.timestamp = "2024-02-02T00:00:00.000Z"
      ∧ rec.lastEdited = none
      ∧ (sendMessage [ch1] (.ok "M2") ⟨some "c1", some "hi", false, none, none⟩
          "2024-02-02T00:00:00.000Z" (FileState.valid [r0])).2.1
          = saveMessages (loadMessages (FileState.valid [r0]) ++ [rec])
      ∧ (loadMessages (sendMessage [ch1] (.ok "M2")
            ⟨some "c1", some "hi", false, none, none⟩
            "2024-02-02T00:00:00.000Z" (FileState.valid [r0])).2.1).countP
          (fun r => r.id == "M2") = 1 :=
  sendMessage_success_spec [ch1] ⟨some "c1", some "hi", false, none, none⟩
    "2024-02-02T00:00:00.000Z" (FileState.valid [r0]) "M2" ch1
    (by decide) (by decide) (by decide) (by decide)

/-- Characterization of the edit handler's success path: with truthy
content, the record found at index `i`, its channel cached, the remote
fetch finding the message and the remote edit succeeding, the handler
returns the rewritten record and persists the collection with position
`i` replaced by it. -/
theorem editMessage_success_eq (channels : List Channel) (messageId : String)
    (req : EditRequest) (now : String) (file : FileState)
    (i : Nat) (stored : MessageRecord) (ch : Channel)
    (hc : truthy req.content = true)
    (hfind : findWithIdx (fun m => m.id == messageId) (loadMessages file)
        = some (i, stored))
    (hch : findChannel channels stored.channelId = some ch) :
    (editMessage channels .found .ok messageId req now file).1
        = .success (editedRecord stored req now)
    ∧ (editMessage channels .found .ok messageId req now file).2.1
        = saveMessages ((loadMessages file).set i (editedRecord stored req now)) := by
  constructor <;> simp [editMessage, editedRecord, hc, hfind, hch]

/-- C2 as stated is false on the code: the edit handler stores the input
content exactly as given, with no trimming. Editing record "M1" with
content " hi v2 " succeeds, and the stored content " hi v2 " differs
from its trimmed form. -/
theorem editMessage_untrimmed_cx :
    (editMessage [ch1] .found .ok "M1" ⟨some " hi v2 ", none, none⟩
        "2024-01-02T00:00:00.000Z" (FileState.valid [r0])).1
      = .success (editedRecord r0 ⟨some " hi v2 ", none, none⟩
          "2024-01-02T00:00:00.000Z")
    ∧ (editedRecord r0 ⟨some " hi v2 ", none, none⟩
        "2024-01-02T00:00:00.000Z").content = " hi v2 "
    ∧ " hi v2 " ≠ jsTrim " hi v2 " := by
  refine ⟨by decide, by decide, by decide⟩

/-- C2 amended: a successful edit stores the input content exactly as
given (the handler applies no trimming), sets lastEdited to the edit
instant, leaves the original timestamp unchanged, and whenever the edit
instant is not below the original timestamp (ISO-8601 strings compare
consistently with time), the new lastEdited is ≥ the original
timestamp. -/
theorem editMessage_content_lastEdited (channels : List Channel)
    (messageId : String) (req : EditRequest) (now : String) (file : FileState)
    (i : Nat) (stored : MessageRecord) (ch : Channel)
    (hc : truthy req.content = true)
    (hfind : findWithIdx (fun m => m.id == messageId) (loadMessages file)
        = some (i, stored))
    (hch : findChannel channels stored.channelId = some ch) :
    ∃ rec, (editMessage channels .found .ok messageId req now file).1
        = .success rec
      ∧ rec.content = req.content.getD ""
      ∧ rec.lastEdited = some now
      ∧ rec.timestamp = stored.timestamp
      ∧ (stored.timestamp ≤ now →
          ∃ t, rec.lastEdited = some t ∧ stored.timestamp ≤ t) :=
  ⟨editedRecord stored req now,
    (editMessage_success_eq channels messageId req now file i stored ch
      hc hfind hch).1,
    rfl, rfl, rfl, fun h => ⟨now, rfl, h⟩⟩

/-- Witness for C2's amended theorem: editing "M1" in the store `[r0]`
with content " hi v2 " at an instant after the record's timestamp. -/
theorem editMessage_content_lastEdited_witness :
    ∃ rec, (editMessage [ch1] .found .ok "M1" ⟨some " hi v2 ", none, none⟩
        "2024-01-02T00:00:00.000Z" (FileState.valid [r0])).1 = .success rec
      ∧ rec.content = (some " hi v2 ").getD ""
      ∧ rec.lastEdited = some "2024-01-02T00:00:00.000Z"
      ∧ rec.timestamp = r0.timestamp
      ∧ (r0.timestamp ≤ "2024-01-02T00:00:00.000Z" →
          ∃ t, rec.lastEdited = some t ∧ r0.timestamp ≤ t) :=
  editMessage_content_lastEdited [ch1] "M1" ⟨some " hi v2 ", none, none⟩
    "2024-01-02T00:00:00.000Z" (FileState.valid [r0]) 0 r0 ch1
    (by decide) (by decide) (by decide)

/-- C3: on a successful edit, the stored title falls back to the previous
title when the new one is empty, the stored color falls back likewise,
and isEmbed is recomputed to true exactly when the record was already an
embed or a non-empty title/color is present after the fallback (given the
embed invariant on the stored record, which every reachable store
satisfies). -/
theorem editMessage_fallback_isEmbed (channels : List Channel)
    (messageId : String) (req : EditRequest) (now : String) (file : FileState)
    (i : Nat) (stored : MessageRecord) (ch : Channel)
    (hc : truthy req.content = true)
    (hfind : findWithIdx (fun m => m.id == messageId) (loadMessages file)
        = some (i, stored))
    (hch : findChannel channels stored.channelId = some ch)
    (hinv : embedInv stored) :
    ∃ rec, (editMessage channels .found .ok messageId req now file).1
        = .success rec
      ∧ (truthy req.title = false → rec.title = stored.title)
      ∧ (truthy req.color = false → rec.color = stored.color)
      ∧ rec.isEmbed = (stored.isEmbed || truthy rec.title || truthy rec.color) := by
  refine ⟨editedRecord stored req now,
    (editMessage_success_eq channels messageId req now file i stored ch
      hc hfind hch).1, ?_, ?_, ?_⟩
  · intro h; simp [editedRecord, h]
  · intro h; simp [editedRecord, h]
  · simp only [editedRecord]
    cases hse : stored.isEmbed
    · have ht : stored.title = none := by
        by_contra hne
        have h2 := hinv (Or.inl hne)
        rw [h2] at hse
        exact Bool.noConfusion hse
      have hcl : stored.color = none := by
        by_contra hne
        have h2 := hinv (Or.inr hne)
        rw [h2] at hse
        exact Bool.noConfusion hse
      cases htt : truthy req.title <;> cases htc : truthy req.color <;>
        simp [ht, hcl, htt, htc]
    · simp

/-- Witness for C3: editing the non-embed record `r0` (no stored
title/color) with a new title "T" makes the stored record an embed and
keeps the fallback semantics. -/
theorem editMessage_fallback_isEmbed_witness :
    ∃ rec, (editMessage [ch1] .found .ok "M1" ⟨some "v2", some "T", none⟩
        "2024-01-02T00:00:00.000Z" (FileState.valid [r0])).1 = .success rec
      ∧ (truthy (some "T") = false → rec.title = r0.title)
      ∧ (truthy (none : Option String) = false → rec.color = r0.color)
      ∧ rec.isEmbed = (r0.isEmbed || truthy rec.title || truthy rec.color) :=
  editMessage_fallback_isEmbed [ch1] "M1" ⟨some "v2", some "T", none⟩
    "2024-01-02T00:00:00.000Z" (FileState.valid [r0]) 0 r0 ch1
    (by decide) (by decide) (by decide)
    (by intro h; rcases h with h | h <;> exact absurd rfl h)

/-- C4: with non-empty content, edit fails with NotFound (404) when no
stored record carries the requested id, and — for an existing record
whose channel is cached — with NotFound (404) when the remote fetch does
not find the message (deleted out-of-band); in both cases the persisted
collection is untouched. -/
theorem editMessage_notFound (channels : List Channel) (fetch : FetchOutcome)
    (remoteEdit : EditOutcome) (messageId : String) (req : EditRequest)
    (now : String) (file : FileState)
    (hc : truthy req.content = true) :
    ((∀ r ∈ loadMessages file, r.id ≠ messageId) →
        editMessage channels fetch remoteEdit messageId req now file
          = (.notFoundInStorage, file, []))
    ∧ (∀ i stored ch,
        findWithIdx (fun m => m.id == messageId) (loadMessages file)
            = some (i, stored) →
        findChannel channels stored.channelId = some ch →
        editMessage channels .missing remoteEdit messageId req now file
          = (.remoteMessageNotFound, file,
              [RemoteCall.fetchMessage ch.id messageId])) := by
  constructor
  · intro h
    have hnone : findWithIdx (fun m => m.id == messageId) (loadMessages file)
        = none :=
      findWithIdx_eq_none (fun r hr => by simpa using h r hr)
    simp [editMessage, hc, hnone]
  · intro i stored ch hfind hch
    simp [editMessage, hc, hfind, hch]

/-- Witness for C4: no record with id "MX" exists in `[r0]`, so the edit
404s with the file untouched; record "M1" exists with channel "c1"
cached, and a missing remote message also 404s with the file untouched. -/
theorem editMessage_notFound_witness :
    editMessage [ch1] .found .ok "MX" ⟨some "v2", none, none⟩ "t1"
        (FileState.valid [r0]) = (.notFoundInStorage, FileState.valid [r0], [])
    ∧ editMessage [ch1] .missing .ok "M1" ⟨some "v2", none, none⟩ "t1"
        (FileState.valid [r0])
      = (.remoteMessageNotFound, FileState.valid [r0],
          [RemoteCall.fetchMessage ch1.id "M1"]) := by
  constructor
  · exact (editMessage_notFound [ch1] .found .ok "MX" ⟨some "v2", none, none⟩
      "t1" (FileState.valid [r0]) (by decide)).1 (by decide)
  · exact (editMessage_notFound [ch1] .missing .ok "M1" ⟨some "v2", none, none⟩
      "t1" (FileState.valid [r0]) (by decide)).2 0 r0 ch1 (by decide) (by decide)

/-- C9: a successful edit preserves the edited record's id, channelId,
channelName, guildId, guildName and timestamp, keeps the collection's
length, and leaves every record at any other position exactly as it
was. -/
theorem editMessage_frame (channels : List Channel) (messageId : String)
    (req : EditRequest) (now : String) (file : FileState)
    (i : Nat) (stored : MessageRecord) (ch : Channel)
    (hc : truthy req.content = true)
    (hfind : findWithIdx (fun m => m.id == messageId) (loadMessages file)
        = some (i, stored))
    (hch : findChannel channels stored.channelId = some ch) :
    ∃ rec newList,
      (editMessage channels .found .ok messageId req now file).1 = .success rec
      ∧ (editMessage channels .found .ok messageId req now file).2.1
          = FileState.valid newList
      ∧ newList.length = (loadMessages file).length
      ∧ newList[i]? = some rec
      ∧ rec.id = stored.id ∧ rec.channelId = stored.channelId
      ∧ rec.channelName = stored.channelName ∧ rec.guildId = stored.guildId
      ∧ rec.guildName = stored.guildName ∧ rec.timestamp = stored.timestamp
      ∧ ∀ j, j ≠ i → newList[j]? = (loadMessages file)[j]? := by
  obtain ⟨h1, h2⟩ := editMessage_success_eq channels messageId req now file
    i stored ch hc hfind hch
  obtain ⟨hlt, hget, hp⟩ := findWithIdx_eq_some hfind
  exact ⟨editedRecord stored req now,
    (loadMessages file).set i (editedRecord stored req now),
    h1, h2, List.length_set _ _ _,
    List.getElem?_set_eq_of_lt _ hlt, rfl, rfl, rfl, rfl, rfl, rfl,
    fun j hj => List.getElem?_set_ne (Ne.symm hj)⟩

/-- Witness for C9: the concrete successful edit of "M1" in `[r0]`. -/
theorem editMessage_frame_witness :
    ∃ rec newList,
      (editMessage [ch1] .found .ok "M1" ⟨some "v2", none, none⟩ "t1"
          (FileState.valid [r0])).1 = .success rec
      ∧ (editMessage [ch1] .found .ok "M1" ⟨some "v2", none, none⟩ "t1"
          (FileState.valid [r0])).2.1 = FileState.valid newList
      ∧ newList.length = (loadMessages (FileState.valid [r0])).length
      ∧ newList[0]? = some rec
      ∧ rec.id = r0.id ∧ rec.channelId = r0.channelId
      ∧ rec.channelName = r0.channelName ∧ rec.guildId = r0.guildId
      ∧ rec.guildName = r0.guildName ∧ rec.timestamp = r0.timestamp
      ∧ ∀ j, j ≠ 0 → newList[j]? = (loadMessages (FileState.valid [r0]))[j]? :=
  editMessage_frame [ch1] "M1" ⟨some "v2", none, none⟩ "t1"
    (FileState.valid [r0]) 0 r0 ch1 (by decide) (by decide) (by decide)

/-- `storeInv` of a freshly saved collection is the invariant on its
records. -/
theorem storeInv_saveMessages {l : List MessageRecord}
    (h : ∀ r ∈ l, embedInv r) : storeInv (saveMessages l) := h

/-- The send handler preserves the embed invariant for any request,
remote outcome and starting file. -/
theorem sendMessage_preserves_embedInv (channels : List Channel)
    (remote : SendOutcome) (req : SendRequest) (now : String)
    (file : FileState) (hinv : storeInv file) :
    storeInv (sendMessage channels remote req now file).2.1 := by
  cases hcid : truthy req.channelId with
  | false => simpa [sendMessage, hcid] using hinv
  | true =>
    cases hcon : truthy req.content with
    | false => simpa [sendMessage, hcid, hcon] using hinv
    | true =>
      cases hch : findChannel channels (req.channelId.getD "") with
      | none => simpa [sendMessage, hcid, hcon, hch] using hinv
      | some ch =>
        cases remote with
        | err => simpa [sendMessage, hcid, hcon, hch] using hinv
        | ok remoteId =>
          have heq : (sendMessage channels (.ok remoteId) req now file).2.1
              = saveMessages (loadMessages file ++ [sentRecord ch req now remoteId]) := by
            simp [sendMessage, sentRecord, hcid, hcon, hch]
          rw [heq]
          refine storeInv_saveMessages ?_
          intro r hr
          rcases List.mem_append.mp hr with hr | hr
          · exact hinv r hr
          · rw [List.mem_singleton.mp hr]
            intro hcase
            simp only [sentRecord] at hcase ⊢
            rcases hcase with hcase | hcase
            · by_cases hu : (req.useEmbed && truthy req.title) = true
              · exact (Bool.and_eq_true_iff.mp hu).1
              · rw [if_neg hu] at hcase
                exact absurd rfl hcase
            · by_cases hu : (req.useEmbed && truthy req.color) = true
              · exact (Bool.and_eq_true_iff.mp hu).1
              · rw [if_neg hu] at hcase
                exact absurd rfl hcase

/-- The edit handler preserves the embed invariant for any request,
remote outcomes and starting file. -/
theorem editMessage_preserves_embedInv (channels : List Channel)
    (fetch : FetchOutcome) (remoteEdit : EditOutcome) (messageId : String)
    (req : EditRequest) (now : String) (file : FileState)
    (hinv : storeInv file) :
    storeInv (editMessage channels fetch remoteEdit messageId req now file).2.1 := by
  cases hcon : truthy req.content with
  | false => simpa [editMessage, hcon] using hinv
  | true =>
    cases hfind : findWithIdx (fun m => m.id == messageId) (loadMessages file) with
    | none => simpa [editMessage, hcon, hfind] using hinv
    | some pair =>
      obtain ⟨i, stored⟩ := pair
      cases hch : findChannel channels stored.channelId with
      | none => simpa [editMessage, hcon, hfind, hch] using hinv
      | some ch =>
        cases fetch with
        | threw => simpa [editMessage, hcon, hfind, hch] using hinv
        | missing => simpa [editMessage, hcon, hfind, hch] using hinv
        | found =>
          cases remoteEdit with
          | err => simpa [editMessage, hcon, hfind, hch] using hinv
          | ok =>
            have heq := (editMessage_success_eq channels messageId req now file
              i stored ch hcon hfind hch).2
            rw [heq]
            refine storeInv_saveMessages ?_
            intro r hr
            rcases List.mem_or_eq_of_mem_set hr with hr | hr
            · exact hinv r hr
            · subst hr
              have hstored : embedInv stored :=
                hinv stored (List.getElem?_mem (findWithIdx_eq_some hfind).2.1)
              intro hcase
              simp only [editedRecord] at hcase ⊢
              rcases hcase with hcase | hcase
              · by_cases htt : truthy req.title = true
                · simp [htt]
                · rw [if_neg htt] at hcase
                  rw [hstored (Or.inl hcase)]
                  simp
              · by_cases htc : truthy req.color = true
                · simp [htc]
                · rw [if_neg htc] at hcase
                  rw [hstored (Or.inr hcase)]
                  simp

/-- The delete handler preserves the embed invariant: the resulting
collection is a filtering of the previous one. -/
theorem deleteMessage_preserves_embedInv (messageId : String)
    (file : FileState) (hinv : storeInv file) :
    storeInv (deleteMessage messageId file).2.1 := by
  intro r hr
  rw [deleteMessage_loadAll] at hr
  exact hinv r (List.mem_filter.mp hr).1

/-- C10: every operation (send, edit, delete) keeps the invariant that
any persisted record with a non-null title or a non-null color has
isEmbed = true — send stores title and color only when useEmbed is set,
edit turns isEmbed on whenever it stores a new title or color, and
delete only removes records. -/
theorem operations_preserve_embedInv (channels : List Channel)
    (remote : SendOutcome) (sreq : SendRequest)
    (fetch : FetchOutcome) (remoteEdit : EditOutcome)
    (sendNow editNow editId deleteId : String) (ereq : EditRequest)
    (file : FileState) (hinv : storeInv file) :
    storeInv (sendMessage channels remote sreq sendNow file).2.1
    ∧ storeInv (editMessage channels fetch remoteEdit editId ereq editNow file).2.1
    ∧ storeInv (deleteMessage deleteId file).2.1 :=
  ⟨sendMessage_preserves_embedInv channels remote sreq sendNow file hinv,
   editMessage_preserves_embedInv channels fetch remoteEdit editId ereq
     editNow file hinv,
   deleteMessage_preserves_embedInv deleteId file hinv⟩

/-- Witness for C10: concrete send (an embed with a title), edit (adding
a title to the plain record "M1") and delete, all on the store `[r0]`,
which satisfies the invariant. -/
theorem operations_preserve_embedInv_witness :
    storeInv (sendMessage [ch1] (.ok "M2")
        ⟨some "c1", some "hi", true, some "T", none⟩ "t1"
        (FileState.valid [r0])).2.1
    ∧ storeInv (editMessage [ch1] .found .ok "M1"
        ⟨some "v2", some "T2", none⟩ "t2" (FileState.valid [r0])).2.1
    ∧ storeInv (deleteMessage "M1" (FileState.valid [r0])).2.1 :=
  operations_preserve_embedInv [ch1] (.ok "M2")
    ⟨some "c1", some "hi", true, some "T", none⟩ .found .ok
    "t1" "t2" "M1" "M1" ⟨some "v2", some "T2", none⟩ (FileState.valid [r0])
    (by
      intro r hr
      rw [List.mem_singleton.mp hr]
      intro h
      rcases h with h | h <;> exact absurd rfl h)

end LinkCrafter
